import Mathlib

/-!
Shallow embedding of the control-signal generator core of `rvcodedb`
(`src/ctrl-gender.py` and `src/db.py`), together with theorems settling
the specification claims about it.

Conventions of the embedding:
* Python strings are Lean `String`s; character-level algorithms work on
  `String.data : List Char`.
* Python `int` is `Nat` (all quantities involved are non-negative counts);
  where Python writes `max(0, i - 1)` the code is mirrored with `Int` and
  an explicit `max`.
* Ambient state (the `QSettings` template text, `datetime.now()`, the
  records file) is passed as explicit arguments / explicit file values.
* Fallible operations return `Except`/`Option` or a `Bool` success flag,
  mirroring the exception behaviour of the Python code on each path.
-/

namespace Rvcodedb

/-- Mirror of the `Instruction` dataclass (`ctrl-gender.py`, line 30):
`name`, `extension`, `encode`, `args`. -/
structure Instruction where
  name : String
  extension : String
  encode : String
  args : List String
  deriving Repr, DecidableEq

/-- Mirror of the dictionary built by
`RISCVCtrlGenerator.create_control_signal` (and stored in `records.json`):
keys `name`, `encoding_type`, `width`, `values`, `instructions`,
`created_at`, `signal_id`.  The Python `values` field is an
insertion-ordered `dict` from value name to instruction-name list; it is
modelled as an association list in insertion order. -/
structure Signal where
  name : String
  encoding_type : String
  width : Nat
  values : List (String × List String)
  instructions : List String
  created_at : String
  signal_id : String
  deriving Repr, DecidableEq

/-! ## EncodingNormalizer (`db.py`, `convert_encoding_to_question_marks`) -/

/-- Mirror of `convert_encoding_to_question_marks` (`db.py`, lines 28-43):
characters `0` and `1` pass through, every other character becomes `?`. -/
def convert_encoding_to_question_marks (encoding : String) : String :=
  ⟨encoding.data.map (fun c => if c = '0' ∨ c = '1' then c else '?')⟩

/-! ## WidthCalculator (`ctrl-gender.py`, lines 1583-1587) -/

/-- Mirror of Python `int.bit_length` on non-negative integers:
`0` has bit length `0`, and a positive `m` has bit length
`floor(log2 m) + 1`. -/
def bit_length (m : Nat) : Nat :=
  if m = 0 then 0 else Nat.log2 m + 1

/-- The width computation inlined in `create_control_signal`
(`ctrl-gender.py`, lines 1583-1587): `OneHot` gives one bit per value;
any other encoding type (`Binary` or `Gray`) gives
`(n - 1).bit_length()` for `n > 0` and `0` for `n = 0`. -/
def signalWidth (encoding_type : String) (n : Nat) : Nat :=
  if encoding_type = "OneHot" then n
  else if n > 0 then bit_length (n - 1) else 0

/-- For positive `n`, `bit_length (n - 1)` is the ceiling logarithm
`Nat.clog 2 n`, i.e. `ceil(log2 n)`. -/
theorem bit_length_pred_eq_clog (n : Nat) (hn : 0 < n) :
    bit_length (n - 1) = Nat.clog 2 n := by
  rcases Nat.lt_or_ge n 2 with h2 | h2
  · interval_cases n
    · simp [bit_length, Nat.clog_one_right]
  · have hpos : n - 1 ≠ 0 := by omega
    have hlog2 : Nat.log2 (n - 1) = Nat.log 2 (n - 1) := Nat.log2_eq_log_two
    have hb : (1 : Nat) < 2 := by omega
    have hle : Nat.clog 2 n ≤ Nat.log 2 (n - 1) + 1 := by
      rw [← Nat.le_pow_iff_clog_le hb]
      have := Nat.lt_pow_succ_log_self hb (n - 1)
      omega
    have hge : Nat.log 2 (n - 1) + 1 ≤ Nat.clog 2 n := by
      by_contra hcon
      have hcl : Nat.clog 2 n ≤ Nat.log 2 (n - 1) := by omega
      have hnle : n ≤ 2 ^ Nat.log 2 (n - 1) :=
        (Nat.le_pow_iff_clog_le hb).mpr hcl
      have hself : 2 ^ Nat.log 2 (n - 1) ≤ n - 1 :=
        Nat.pow_log_le_self 2 hpos
      omega
    have : bit_length (n - 1) = Nat.log 2 (n - 1) + 1 := by
      simp [bit_length, hpos, hlog2]
    omega

/-! ## InstructionCatalog (`ctrl-gender.py`, `load_csv`, lines 1543-1558)

`load_csv` runs `self.instructions.clear()` first, then opens the file and
iterates the space-delimited reader, appending one `Instruction` per row
that has at least 3 fields.  The possible outcomes of reading the file are
modelled as a `CsvFile` value: the `open` call can raise (`missing`), the
reader can yield all rows cleanly (`rows`), or it can yield a prefix of
rows and then raise mid-read, e.g. on a decode error (`rowsThenFail`). -/

/-- Outcome of opening and reading the catalog file, as seen by the
`for row in reader` loop of `load_csv`. -/
inductive CsvFile where
  | missing
  | rows (rs : List (List String))
  | rowsThenFail (rs : List (List String))
  deriving Repr, DecidableEq

/-- The body of the `for row in reader` loop (`ctrl-gender.py`,
lines 1549-1555): a row with at least 3 fields yields an `Instruction`
built from fields 0, 1, 2 and the remaining fields as `args`; any shorter
row yields nothing. -/
def parseRow (row : List String) : Option Instruction :=
  if row.length ≥ 3 then
    some ⟨row.getD 0 "", row.getD 1 "", row.getD 2 "", row.drop 3⟩
  else
    none

/-- The accumulated effect of the reader loop over a list of rows. -/
def parseRows : List (List String) → List Instruction
  | [] => []
  | row :: rest =>
    match parseRow row with
    | some i => i :: parseRows rest
    | none => parseRows rest

/-- Mirror of `load_csv` (`ctrl-gender.py`, lines 1543-1558) as a function
from the previous in-memory catalog and the file outcome to the new
catalog and a success flag.  `self.instructions.clear()` runs before the
`try` block, so the previous catalog is discarded on every path; on
`missing` the `open` raises and the cleared catalog remains; on
`rowsThenFail` the prefix read before the exception remains. -/
def load_csv (_previous : List Instruction) (f : CsvFile) :
    List Instruction × Bool :=
  match f with
  | .missing => ([], false)
  | .rows rs => (parseRows rs, true)
  | .rowsThenFail rs => (parseRows rs, false)

/-! ## ValuePartition commit
(`ctrl-gender.py`, `create_control_signal`, lines 1560-1603) -/

/-- The duplicate-collection loop of `create_control_signal`
(lines 1570-1575): walk the concatenated instruction list with a `seen`
set, recording each occurrence of a name that was already seen (one entry
per occurrence beyond the first). -/
def dupOccurrences : List String → List String → List String
  | _, [] => []
  | seen, i :: rest =>
    if i ∈ seen then i :: dupOccurrences seen rest
    else dupOccurrences (i :: seen) rest

/-- Lexicographic comparison of character lists by code point, the order
Python's `sorted` uses on strings. -/
def strLeL : List Char → List Char → Bool
  | [], _ => true
  | _ :: _, [] => false
  | a :: as, b :: bs => if a = b then strLeL as bs else decide (a < b)

/-- Python's `<=` on strings, as a decidable relation. -/
def pyStrLe (a b : String) : Prop := strLeL a.data b.data = true

instance : DecidableRel pyStrLe := fun _ _ => instDecidableEqBool _ _

/-- The error raised on duplicate assignment (`ctrl-gender.py`,
lines 1577-1581): the message lists `sorted(duplicate_instructions)[:5]`
joined by commas, followed by a count suffix when
`len(duplicate_instructions) > 5`.  `listed` is the list of names in the
message and `total` the length used for the suffix test. -/
structure DupError where
  listed : List String
  total : Nat
  deriving Repr, DecidableEq

/-- Mirror of `create_control_signal` (`ctrl-gender.py`, lines 1560-1603).
`value_mapping` is the ordered mapping from value name to instruction
list.  The ambient timestamps `datetime.now().strftime(...)` are passed
as `now` (for `created_at`) and `sid` (for `signal_id`).  The width
computation inlined at lines 1583-1587 is `signalWidth`; Python's
`list(set(all_instructions))` is modelled as `all.dedup` (one entry per
distinct name; Python's set iteration order is unspecified, so claims
about `instructions` are stated up to membership).  The `save_record`
side effect does not alter the returned record and is modelled
separately. -/
def create_control_signal (name : String) (encoding_type : String)
    (value_mapping : List (String × List String)) (now sid : String) :
    Except DupError Signal :=
  let all_instructions := value_mapping.flatMap Prod.snd
  if all_instructions.length ≠ all_instructions.dedup.length then
    let dups := dupOccurrences [] all_instructions
    .error ⟨(dups.insertionSort pyStrLe).take 5, dups.length⟩
  else
    .ok { name := name
          encoding_type := encoding_type
          width := signalWidth encoding_type value_mapping.length
          values := value_mapping
          instructions := all_instructions.dedup
          created_at := now
          signal_id := sid }

/-! ## RecordStore (`ctrl-gender.py`, lines 1605-1656)

The store file `records.json` holds a JSON array of signal records.  The
three relevant states of the file are modelled by `StoreFile`: the file
does not exist, it exists but `json.load` raises (corrupt), or it parses
to a list of records. -/

/-- The state of the `records.json` file as seen by `load_records`. -/
inductive StoreFile where
  | missing
  | corrupt
  | good (records : List Signal)
  deriving Repr, DecidableEq

/-- A parsed `%Y-%m-%d %H:%M:%S` timestamp. -/
structure Timestamp where
  year : Nat
  month : Nat
  day : Nat
  hour : Nat
  minute : Nat
  second : Nat
  deriving Repr, DecidableEq

/-- Gregorian leap-year rule, as used by Python's `datetime`. -/
def isLeap (y : Nat) : Bool :=
  y % 4 = 0 ∧ (y % 100 ≠ 0 ∨ y % 400 = 0)

/-- Days in a month, as validated by the `datetime` constructor. -/
def daysInMonth (y m : Nat) : Nat :=
  if m = 2 then (if isLeap y then 29 else 28)
  else if m = 4 ∨ m = 6 ∨ m = 9 ∨ m = 11 then 30
  else 31

/-- The Unicode whitespace characters of CPython (verified against this
build, 3.11): exactly the characters for which `str.isspace()` is true.
This is also the set matched by the `re` module's `\s` and the set
stripped by `str.strip()` / `str.rstrip()` / `str.lstrip()`. -/
def uniWhitespace : List Char :=
  ['\t', '\n', '\x0b', '\x0c', '\r', '\x1c', '\x1d', '\x1e', '\x1f', ' ',
   '\x85', '\xa0', '\u1680', '\u2000', '\u2001', '\u2002', '\u2003',
   '\u2004', '\u2005', '\u2006', '\u2007', '\u2008', '\u2009', '\u200a',
   '\u2028', '\u2029', '\u202f', '\u205f', '\u3000']

/-- Whether a character is Python whitespace (`str.isspace()`). -/
def isPySpace (c : Char) : Bool := uniWhitespace.contains c

/-- First code points of the contiguous ten-character decimal-digit
blocks (Unicode category Nd) of this CPython build; each block carries
the digit values 0-9 in code-point order.  These are exactly the
characters the `re` module's `\d` matches and `int()` converts. -/
def decimalDigitBlocks : List Nat :=
  [0x30, 0x660, 0x6f0, 0x7c0, 0x966, 0x9e6, 0xa66, 0xae6, 0xb66, 0xbe6,
   0xc66, 0xce6, 0xd66, 0xde6, 0xe50, 0xed0, 0xf20, 0x1040, 0x1090,
   0x17e0, 0x1810, 0x1946, 0x19d0, 0x1a80, 0x1a90, 0x1b50, 0x1bb0,
   0x1c40, 0x1c50, 0xa620, 0xa8d0, 0xa900, 0xa9d0, 0xa9f0, 0xaa50,
   0xabf0, 0xff10, 0x104a0, 0x10d30, 0x11066, 0x110f0, 0x11136, 0x111d0,
   0x112f0, 0x11450, 0x114d0, 0x11650, 0x116c0, 0x11730, 0x118e0,
   0x11950, 0x11c50, 0x11d50, 0x11da0, 0x16a60, 0x16ac0, 0x16b50,
   0x1d7ce, 0x1d7d8, 0x1d7e2, 0x1d7ec, 0x1d7f6, 0x1e140, 0x1e2f0,
   0x1e950, 0x1fbf0]

/-- The decimal value of a Unicode decimal digit (`None` otherwise). -/
def decimalVal (c : Char) : Option Nat :=
  (decimalDigitBlocks.find? (fun b => b ≤ c.toNat ∧ c.toNat ≤ b + 9)).map
    (fun b => c.toNat - b)

/-- Whether a character is a Unicode decimal digit (the `re` module's
`\d`). -/
def isDecDigit (c : Char) : Bool := (decimalVal c).isSome

/-- Numeric value of a run of decimal digits, as `int()` computes it
(mixed scripts allowed). -/
def digitsVal (ds : List Char) : Nat :=
  ds.foldl (fun a c => a * 10 + (decimalVal c).getD 0) 0

/-- Split off the leading run of decimal digits.  Every `strptime`
numeric directive is followed in the format by a non-digit (a literal
separator, whitespace, or the end of the string), so under the regex's
backtracking a directive matches exactly when it consumes the entire
digit run at its position. -/
def splitDigits (l : List Char) : List Char × List Char :=
  (l.takeWhile isDecDigit, l.dropWhile isDecDigit)

/-- Consume one expected literal character. -/
def expectSep (c : Char) : List Char → Option (List Char)
  | [] => none
  | x :: r => if x = c then some r else none

/-- Consume the separator the format's space compiles to: CPython's
`_strptime` rewrites whitespace runs in the format to `\s+`, so any
nonempty run of Unicode whitespace is accepted (greedily; the following
directive starts with a digit, which is never whitespace). -/
def expectSpaces : List Char → Option (List Char)
  | [] => none
  | c :: r => if isPySpace c then some (r.dropWhile isPySpace) else none

/-- The `%Y` directive, TimeRE regex `\d\d\d\d`: exactly four decimal
digits. -/
def matchYear (run : List Char) : Option Nat :=
  if run.length = 4 then some (digitsVal run) else none

/-- The `%m` directive, TimeRE regex `1[0-2]|0[1-9]|[1-9]` (ASCII
character classes only), applied to the digit run at its position. -/
def matchMonth : List Char → Option Nat
  | [a] => if '1' ≤ a ∧ a ≤ '9' then some (digitsVal [a]) else none
  | [a, b] =>
    if (a = '1' ∧ '0' ≤ b ∧ b ≤ '2') ∨ (a = '0' ∧ '1' ≤ b ∧ b ≤ '9') then
      some (digitsVal [a, b])
    else none
  | _ => none

/-- The digit-run forms of the `%d` directive, TimeRE regex
`3[0-1]|[1-2]\d|0[1-9]|[1-9]` (its final ` [1-9]` space form is handled
in `matchDay`); the classes are ASCII, the `\d` is any decimal digit. -/
def matchDayRun : List Char → Option Nat
  | [a] => if '1' ≤ a ∧ a ≤ '9' then some (digitsVal [a]) else none
  | [a, b] =>
    if (a = '3' ∧ '0' ≤ b ∧ b ≤ '1') ∨
        ((a = '1' ∨ a = '2') ∧ isDecDigit b) ∨
        (a = '0' ∧ '1' ≤ b ∧ b ≤ '9') then
      some (digitsVal [a, b])
    else none
  | _ => none

/-- The `%d` directive, TimeRE regex `3[0-1]|[1-2]\d|0[1-9]|[1-9]| [1-9]`:
either a literal ASCII space followed by a single ASCII digit 1-9, or a
digit-run form.  Returns the day and the unconsumed input. -/
def matchDay (l : List Char) : Option (Nat × List Char) :=
  match l with
  | ' ' :: b :: r =>
    if '1' ≤ b ∧ b ≤ '9' then some (digitsVal [b], r) else none
  | _ =>
    let (run, r) := splitDigits l
    (matchDayRun run).map (fun d => (d, r))

/-- The `%H` directive, TimeRE regex `2[0-3]|[0-1]\d|\d`. -/
def matchHour : List Char → Option Nat
  | [a] => if isDecDigit a then some (digitsVal [a]) else none
  | [a, b] =>
    if (a = '2' ∧ '0' ≤ b ∧ b ≤ '3') ∨
        ((a = '0' ∨ a = '1') ∧ isDecDigit b) then
      some (digitsVal [a, b])
    else none
  | _ => none

/-- The `%M` directive, TimeRE regex `[0-5]\d|\d`. -/
def matchMinute : List Char → Option Nat
  | [a] => if isDecDigit a then some (digitsVal [a]) else none
  | [a, b] =>
    if ('0' ≤ a ∧ a ≤ '5') ∧ isDecDigit b then some (digitsVal [a, b])
    else none
  | _ => none

/-- The `%S` directive, TimeRE regex `6[0-1]|[0-5]\d|\d` (the values 60
and 61 pass the regex but are then rejected by the `datetime`
constructor). -/
def matchSecond : List Char → Option Nat
  | [a] => if isDecDigit a then some (digitsVal [a]) else none
  | [a, b] =>
    if (a = '6' ∧ '0' ≤ b ∧ b ≤ '1') ∨
        (('0' ≤ a ∧ a ≤ '5') ∧ isDecDigit b) then
      some (digitsVal [a, b])
    else none
  | _ => none

/-- Mirror of `parse_time` inside `load_records` (`ctrl-gender.py`,
lines 1631-1635): `datetime.strptime(time_str, "%Y-%m-%d %H:%M:%S")`,
returning `none` where Python raises (the caller then falls back to
`datetime.min`).  CPython's `_strptime` rewrites the format's space to
`\s+`, compiles each directive to the regex quoted on its field matcher,
requires the whole string to be consumed, converts each captured group
with `int()`, and the `datetime` constructor then validates `1 <= year`,
`1 <= month <= 12`, the day against the month length, `hour <= 23`,
`minute <= 59` and `second <= 59`. -/
def parseTime (s : String) : Option Timestamp := do
  let (yr, r0) := splitDigits s.data
  let y ← matchYear yr
  let r1 ← expectSep '-' r0
  let (mr, r2) := splitDigits r1
  let mo ← matchMonth mr
  let r3 ← expectSep '-' r2
  let (d, r4) ← matchDay r3
  let r5 ← expectSpaces r4
  let (hr, r6) := splitDigits r5
  let h ← matchHour hr
  let r7 ← expectSep ':' r6
  let (mir, r8) := splitDigits r7
  let mi ← matchMinute mir
  let r9 ← expectSep ':' r8
  let (sr, r10) := splitDigits r9
  let sec ← matchSecond sr
  if r10 = [] ∧ 1 ≤ y ∧ 1 ≤ mo ∧ mo ≤ 12 ∧ 1 ≤ d ∧ d ≤ daysInMonth y mo ∧
      h ≤ 23 ∧ mi ≤ 59 ∧ sec ≤ 59 then
    some ⟨y, mo, d, h, mi, sec⟩
  else none

/-- Python's `datetime.min`: year 1, month 1, day 1, midnight — the
fallback key for unparseable `created_at` strings. -/
def datetimeMin : Timestamp := ⟨1, 1, 1, 0, 0, 0⟩

/-- Pack a timestamp into a natural number so that chronological order
becomes numeric order (fields are within their validated ranges). -/
def timeKey (t : Timestamp) : Nat :=
  ((((t.year * 12 + (t.month - 1)) * 31 + (t.day - 1)) * 24 + t.hour)
      * 60 + t.minute) * 60 + t.second

/-- The sort key `parse_time(x.get('created_at', ''))` of `load_records`:
parse the record's `created_at`, falling back to `datetime.min`. -/
def recordKey (r : Signal) : Nat :=
  timeKey ((parseTime r.created_at).getD datetimeMin)

/-- The descending comparison used by
`records.sort(key=..., reverse=True)`: `a` may come before `b` exactly
when `a`'s key is at least `b`'s.  Inserting with this relation via a
stable insertion sort reproduces Python's stable descending sort. -/
def keyGe (a b : Signal) : Prop := recordKey b ≤ recordKey a

instance : DecidableRel keyGe := fun _ _ => Nat.decLe _ _

/-- Mirror of `load_records` (`ctrl-gender.py`, lines 1621-1642): a
missing file and a corrupt file both give `[]`; otherwise the parsed
records sorted by `created_at` descending (stably, unparseable
timestamps taking the `datetime.min` key). -/
def load_records : StoreFile → List Signal
  | .missing => []
  | .corrupt => []
  | .good rs => rs.insertionSort keyGe

/-- Mirror of `save_record` (`ctrl-gender.py`, lines 1605-1619) on its
successful path: load the existing records, append the new one, and
rewrite the whole file. -/
def save_record (f : StoreFile) (r : Signal) : StoreFile :=
  .good (load_records f ++ [r])

/-- Mirror of `delete_record` (`ctrl-gender.py`, lines 1644-1656) on its
successful path: load, drop every record whose `signal_id` equals the
argument, rewrite, and return `true`.  (The code returns `False` only
when an exception — e.g. a failed write — occurs; on the success path the
returned flag is `True` whether or not anything matched.) -/
def delete_record (f : StoreFile) (record_id : String) :
    StoreFile × Bool :=
  (.good ((load_records f).filter (fun r => r.signal_id ≠ record_id)), true)

/-! ## TemplateEngine (`ctrl-gender.py`, lines 1658-1841)

Rendering is a chain of Python `str.replace` calls.  `str.replace` with a
non-empty pattern scans left to right, replacing each non-overlapping
occurrence; it is modelled by `replaceFuel`, structurally recursive on a
fuel initialised to the input length (all patterns used by the generator
are the fixed non-empty placeholder literals).  Braces inside string
literals below are written with hexadecimal escapes (`\x7b`, `\x7d`). -/

/-- One left-to-right pass of `str.replace old new` over a character
list: at each position, if the (non-empty) pattern is a prefix, emit the
replacement and skip the pattern, else keep the character. -/
def replaceFuel (pat rep : List Char) : Nat → List Char → List Char
  | _, [] => []
  | 0, l => l
  | fuel + 1, c :: rest =>
    if pat.isPrefixOf (c :: rest) && !pat.isEmpty then
      rep ++ replaceFuel pat rep fuel (rest.drop (pat.length - 1))
    else
      c :: replaceFuel pat rep fuel rest

/-- Python `s.replace(pat, rep)` for non-empty `pat`. -/
def pyReplace (s pat rep : String) : String :=
  ⟨replaceFuel pat.data rep.data s.data.length s.data⟩

/-- Whether `pat` occurs as a contiguous substring of `l`. -/
def containsSub (pat : List Char) : List Char → Bool
  | [] => pat.isEmpty
  | c :: rest => pat.isPrefixOf (c :: rest) || containsSub pat rest

/-! ### `format_code` (`ctrl-gender.py`, lines 1818-1841) -/

/-- Python `str.lstrip()` on a character list (`isPySpace` is the
Unicode whitespace predicate of `str.isspace()`, defined above). -/
def lstripL (l : List Char) : List Char := l.dropWhile isPySpace

/-- Python `str.rstrip()` on a character list. -/
def rstripL (l : List Char) : List Char :=
  (l.reverse.dropWhile isPySpace).reverse

/-- Python `str.strip()` on a character list. -/
def stripL (l : List Char) : List Char := lstripL (rstripL l)

/-- Python `str.endswith` for a literal suffix. -/
def endsWithL (suffix l : List Char) : Bool :=
  suffix.reverse.isPrefixOf l.reverse

/-- The indent decrement of `format_code` (`ctrl-gender.py`,
lines 1827-1829), applied before emitting a line whose stripped form `s`
starts or ends with `}`; the decrement is clamped at 0 via
`max(0, indent_level - 1)`. -/
def indentBefore (indent : Int) (s : List Char) : Int :=
  if s.head? = some '}' || endsWithL ['}'] s then max 0 (indent - 1)
  else indent

/-- The indent increment of `format_code` (`ctrl-gender.py`,
lines 1837-1839), applied after emitting a line whose stripped form `s`
ends with `{` or `=>`. -/
def indentAfter (indent : Int) (s : List Char) : Int :=
  if endsWithL ['{'] s || endsWithL ['=', '>'] s then indent + 1 else indent

/-- The loop of `format_code` (`ctrl-gender.py`, lines 1823-1839), over
the lines produced by `split('\n')`, carrying the current
`indent_level` (a Python `int`).  Each line is `rstrip`ped; the indent
is decremented first when the stripped line starts or ends with `}`; a
non-blank line is emitted with `'  ' * indent_level` prepended, a blank
line as `''`; and the indent is incremented after a line ending in `{`
or `=>`. -/
def formatLines (indent : Int) : List (List Char) → List (List Char)
  | [] => []
  | line :: rest =>
    let line := rstripL line
    let s := stripL line
    let ind1 : Int := indentBefore indent s
    let out : List Char :=
      if s.isEmpty then [] else List.replicate (2 * ind1).toNat ' ' ++ line
    out :: formatLines (indentAfter ind1 s) rest

/-- Mirror of `format_code` (`ctrl-gender.py`, lines 1818-1841): split on
newlines, re-indent line by line starting at indent 0, and rejoin. -/
def format_code (code : String) : String :=
  String.intercalate "\n"
    ((formatLines 0 ((code.splitOn "\n").map String.data)).map String.mk)

/-! ### The generators
(`generate_ctrl_code`, lines 1658-1738; `generate_field_code`,
lines 1740-1804) -/

/-- The built-in Ctrl template (`ctrl-gender.py`, lines 1670-1697), used
when no custom template is configured. -/
def defaultCtrlTemplate : String :=
  String.intercalate "\n"
    [ "// ==========================================="
    , "// 自动生成的Chisel控制信号枚举类"
    , "// 生成时间: \x7bgeneration_time\x7d"
    , "// ==========================================="
    , ""
    , "package rv.util.decoder"
    , ""
    , "import chisel3._"
    , "import chisel3.util._"
    , "import rv.util.CtrlEnum"
    , ""
    , "/**"
    , "  * \x7bsignal_name\x7dCtrl - 控制信号枚举类"
    , "  * 编码类型: \x7bencoding_type\x7d"
    , "  * 信号宽度: \x7bsignal_width\x7d bits"
    , "  */"
    , "object \x7bsignal_name\x7dCtrl extends CtrlEnum(CtrlEnum.\x7bencoding_type\x7d) \x7b"
    , "  // 值定义"
    , "\x7bvalues_list\x7d"
    , "  "
    , "  // 指令分类方法"
    , "\x7bmethods_list\x7d"
    , "  "
    , "  // 辅助方法"
    , "  def getAllValues: Seq[UInt] = this.Values"
    , "  "
    , "  def getWidth: Int = this.getWidth"
    , "\x7d" ]

/-- The built-in Field template (`ctrl-gender.py`, lines 1752-1767). -/
def defaultFieldTemplate : String :=
  String.intercalate "\n"
    [ "package rv.util.decoder"
    , ""
    , "import chisel3._"
    , "import chisel3.util._"
    , "import chisel3.util.experimental.decode._"
    , ""
    , "object \x7bsignal_name\x7dField extends DecodeField[InstructionPattern, UInt] \x7b"
    , "  override def name: String = \"\x7bsignal_name\x7dField\""
    , "  override def chiselType: UInt = UInt(\x7bsignal_name\x7dCtrl.getWidth.W)"
    , "  private def map: Seq[(Seq[String], UInt)] = Seq("
    , "\x7bvalue_mappings\x7d"
    , "  )"
    , "  override def genTable(op: InstructionPattern): BitPat = \x7b"
    , "    BitPat(op.nameMatch(map, 0.U(\x7bsignal_name\x7dCtrl.getWidth.W)))"
    , "  \x7d"
    , "\x7d" ]

/-- The `values_list` text (`ctrl-gender.py`, lines 1699-1702): one
`val ... = Value` line per value, in mapping order. -/
def values_list_str (values : List (String × List String)) : String :=
  String.join (values.map fun v => "  val " ++ v.1 ++ " = Value\n")

/-- Split an instruction list into runs of 5, as the
`range(0, len(inst_list), 5)` loop does. -/
def chunksFuel : Nat → List String → List (List String)
  | _, [] => []
  | 0, l => [l]
  | fuel + 1, l => l.take 5 :: chunksFuel fuel (l.drop 5)

/-- The list of successive 5-element slices of `l`. -/
def chunks5 (l : List String) : List (List String) := chunksFuel l.length l

/-- An instruction name in double quotes, as the f-string on line 1712
produces. -/
def quoteInst (i : String) : String := "\"" ++ i ++ "\""

/-- One classification block of `methods_list` (`ctrl-gender.py`,
lines 1706-1724): a populated value yields a quoted, comma-separated,
5-per-line `Seq(...)` accessor, an empty value a `Seq()` accessor. -/
def methodBlock (value_name : String) (inst_list : List String) : String :=
  if inst_list.isEmpty then
    "  def is" ++ value_name ++ ": Seq[String] = Seq()\n\n"
  else
    let parts := (chunks5 inst_list).map
      (fun ch => "    " ++ String.intercalate ", " (ch.map quoteInst))
    "  def is" ++ value_name ++ ": Seq[String] = Seq(\n" ++
      String.intercalate ",\n" parts ++ "\n" ++ "  )\n\n"

/-- The `methods_list` text (`ctrl-gender.py`, lines 1704-1724). -/
def methods_list_str (values : List (String × List String)) : String :=
  String.join (values.map fun v => methodBlock v.1 v.2)

/-- Mirror of `generate_ctrl_code` (`ctrl-gender.py`, lines 1658-1738).
`custom_template` is the `chisel_ctrl_template` setting (empty string =
not configured, in which case the default template is used), `now` the
render-time `generation_time` string, and `auto_format` the
`auto_format` setting.  The placeholders are substituted by successive
`str.replace` calls in the source's order (lines 1727-1732). -/
def generate_ctrl_code (custom_template : String) (signal : Signal)
    (now : String) (auto_format : Bool) : String :=
  let template :=
    if custom_template = "" then defaultCtrlTemplate else custom_template
  let code := pyReplace template "\x7bsignal_name\x7d" signal.name
  let code := pyReplace code "\x7bencoding_type\x7d" signal.encoding_type
  let code := pyReplace code "\x7bvalues_list\x7d" (values_list_str signal.values)
  let code := pyReplace code "\x7bmethods_list\x7d" (methods_list_str signal.values)
  let code := pyReplace code "\x7bsignal_width\x7d" (toString signal.width)
  let code := pyReplace code "\x7bgeneration_time\x7d" now
  if auto_format then format_code code else code

/-- The `value_mappings` text (`ctrl-gender.py`, lines 1769-1791): one
entry per value joined by `,\n` (the enumerate-and-append-comma loop), a
populated value pairing its accessor with its enumeration member, an
empty one pairing `Seq()` with it.  (The loop also computes a chunked
instruction string that it never uses; that dead computation is
omitted.) -/
def value_mappings_str (name : String)
    (values : List (String × List String)) : String :=
  String.intercalate ",\n" (values.map fun v =>
    if v.2.isEmpty then
      "    Seq() -> " ++ name ++ ".Values(" ++ name ++ "." ++ v.1 ++ ")"
    else
      "    " ++ name ++ ".is" ++ v.1 ++ " -> " ++ name ++ ".Values(" ++
        name ++ "." ++ v.1 ++ ")")

/-- Mirror of `generate_field_code` (`ctrl-gender.py`, lines 1740-1804),
with the substitutions of lines 1794-1798 in the source's order. -/
def generate_field_code (custom_template : String) (signal : Signal)
    (now : String) (auto_format : Bool) : String :=
  let template :=
    if custom_template = "" then defaultFieldTemplate else custom_template
  let code := pyReplace template "\x7bsignal_name\x7d" signal.name
  let code := pyReplace code "\x7bencoding_type\x7d" signal.encoding_type
  let code := pyReplace code "\x7bsignal_width\x7d" (toString signal.width)
  let code := pyReplace code "\x7bvalue_mappings\x7d"
    (value_mappings_str signal.name signal.values)
  let code := pyReplace code "\x7bgeneration_time\x7d" now
  if auto_format then format_code code else code

/-! ## Theorems -/

/-- Indexing into a mapped character list. -/
theorem getD_map_char (f : Char → Char) :
    ∀ (l : List Char) (i : Nat), i < l.length →
      (l.map f).getD i 'X' = f (l.getD i 'X')
  | _ :: _, 0, _ => by simp
  | c :: rest, i + 1, h => by
    simpa using getD_map_char f rest i (by simpa using h)

/-- C3: the encoding normalizer preserves length, passes `0`/`1` through
at their positions, rewrites every other character to `?` (so the output
alphabet is contained in `{0,1,?}`), and maps the empty string to the
empty string. -/
theorem convert_encoding_spec : ∀ s : String,
    (convert_encoding_to_question_marks s).length = s.length ∧
    (∀ i, i < s.length →
      ((s.data.getD i 'X' = '0' ∨ s.data.getD i 'X' = '1') →
        (convert_encoding_to_question_marks s).data.getD i 'X' =
          s.data.getD i 'X') ∧
      (s.data.getD i 'X' ≠ '0' ∧ s.data.getD i 'X' ≠ '1' →
        (convert_encoding_to_question_marks s).data.getD i 'X' = '?')) ∧
    (∀ c ∈ (convert_encoding_to_question_marks s).data,
       c = '0' ∨ c = '1' ∨ c = '?') ∧
    convert_encoding_to_question_marks "" = "" := by
  intro s
  have hdata : (convert_encoding_to_question_marks s).data =
      s.data.map (fun c => if c = '0' ∨ c = '1' then c else '?') := rfl
  refine ⟨?_, ?_, ?_, rfl⟩
  · show (s.data.map (fun c => if c = '0' ∨ c = '1' then c else '?')).length
        = s.data.length
    exact List.length_map _ _
  · intro i hi
    have hi' : i < s.data.length := hi
    rw [hdata, getD_map_char _ _ _ hi']
    constructor
    · intro h
      rw [if_pos h]
    · intro h
      rw [if_neg]
      tauto
  · intro c hc
    rw [hdata, List.mem_map] at hc
    obtain ⟨a, _, rfl⟩ := hc
    by_cases h : a = '0' ∨ a = '1'
    · rw [if_pos h]
      tauto
    · rw [if_neg h]
      tauto

/-- Witness for C3 at the input `"0-1"`. -/
theorem convert_encoding_spec_witness :
    (convert_encoding_to_question_marks "0-1").data.getD 1 'X' = '?' :=
  ((convert_encoding_spec "0-1").2.1 1 (by decide)).2 (by decide)

/-- C2: the computed width is `n` for `OneHot` and `ceil(log2 n)`
(`Nat.clog 2 n`, which is `0` at `n = 0` and `n = 1`) for `Binary` and
`Gray`, with the listed concrete values. -/
theorem width_calculator_spec : ∀ n : Nat,
    signalWidth "OneHot" n = n ∧
    signalWidth "Binary" n = Nat.clog 2 n ∧
    signalWidth "Gray" n = Nat.clog 2 n ∧
    signalWidth "OneHot" 0 = 0 ∧
    signalWidth "Binary" 1 = 0 ∧
    signalWidth "Binary" 2 = 1 ∧
    signalWidth "Binary" 5 = 3 ∧
    signalWidth "Gray" 5 = 3 := by
  have hb : ∀ (t : String) n, t ≠ "OneHot" → signalWidth t n = Nat.clog 2 n := by
    intro t n ht
    rw [signalWidth, if_neg ht]
    rcases Nat.eq_zero_or_pos n with h0 | hpos
    · simp [h0, Nat.clog_zero_right]
    · rw [if_pos hpos, bit_length_pred_eq_clog n hpos]
  intro n
  have hbin : ∀ m, signalWidth "Binary" m = Nat.clog 2 m :=
    fun m => hb "Binary" m (by decide)
  have hgray : ∀ m, signalWidth "Gray" m = Nat.clog 2 m :=
    fun m => hb "Gray" m (by decide)
  have hconc : ∀ t : String, t ≠ "OneHot" →
      signalWidth t 1 = 0 ∧ signalWidth t 2 = 1 ∧ signalWidth t 5 = 3 := by
    intro t ht
    refine ⟨?_, ?_, ?_⟩ <;>
      rw [signalWidth, if_neg ht, if_pos (by norm_num)] <;>
      simp [bit_length, Nat.log2]
  refine ⟨by simp [signalWidth], hbin n, hgray n, by simp [signalWidth],
    (hconc "Binary" (by decide)).1, (hconc "Binary" (by decide)).2.1,
    (hconc "Binary" (by decide)).2.2, (hconc "Gray" (by decide)).2.2⟩

/-- C4 counterexample: `load_csv` clears the catalog before opening the
file, so a failed load does not leave the previous catalog intact — a
missing file empties it, and a mid-read failure leaves the prefix read
so far. -/
theorem load_csv_not_atomic_counterexample :
    load_csv [⟨"add", "rv_i", "0110011", []⟩] CsvFile.missing =
      ([], false) ∧
    ([] : List Instruction) ≠ [⟨"add", "rv_i", "0110011", []⟩] ∧
    load_csv [⟨"add", "rv_i", "0110011", []⟩]
        (CsvFile.rowsThenFail [["sub", "rv_i", "0110111", "rd"]]) =
      ([⟨"sub", "rv_i", "0110111", ["rd"]⟩], false) :=
  ⟨rfl, by decide, rfl⟩

/-- C4 amended: the result of `load_csv` never depends on the previous
catalog (clearing happens first); a missing file fails with an emptied
catalog, a clean read succeeds with exactly the parsed rows, and a
mid-read failure fails with the prefix parsed so far. -/
theorem load_csv_amended : ∀ (prev₁ prev₂ : List Instruction) (f : CsvFile),
    load_csv prev₁ f = load_csv prev₂ f ∧
    load_csv prev₁ CsvFile.missing = ([], false) ∧
    (∀ rs, load_csv prev₁ (CsvFile.rows rs) = (parseRows rs, true)) ∧
    (∀ rs, load_csv prev₁ (CsvFile.rowsThenFail rs) = (parseRows rs, false)) := by
  intro p1 p2 f
  exact ⟨by cases f <;> rfl, rfl, fun rs => rfl, fun rs => rfl⟩

/-- C7 counterexample: a one-token line is not rejected — the load
succeeds (returns `true`) and the line is silently dropped. -/
theorem malformed_row_counterexample :
    load_csv [] (CsvFile.rows [["add"]]) = ([], true) := rfl

/-- C7 amended: a line with fewer than 3 whitespace-separated tokens is
silently skipped — it contributes no instruction and the load still
succeeds. -/
theorem short_rows_silently_skipped (st : List Instruction)
    (row : List String) (rs : List (List String)) (h : row.length < 3) :
    load_csv st (CsvFile.rows (row :: rs)) = load_csv st (CsvFile.rows rs) ∧
    (load_csv st (CsvFile.rows (row :: rs))).2 = true := by
  have hp : parseRow row = none := by
    rw [parseRow, if_neg]
    omega
  exact ⟨by simp [load_csv, parseRows, hp], rfl⟩

/-- Witness for the amended C7: skipping the short row `["add"]`. -/
theorem short_rows_silently_skipped_witness :
    (load_csv [] (CsvFile.rows (["add"] :: [["sub", "rv_i", "0110111"]])) =
       load_csv [] (CsvFile.rows [["sub", "rv_i", "0110111"]])) ∧
    (load_csv [] (CsvFile.rows (["add"] :: [["sub", "rv_i", "0110111"]]))).2 =
      true :=
  short_rows_silently_skipped [] ["add"] [["sub", "rv_i", "0110111"]]
    (by decide)

/-- C6 counterexample: deleting an id that matches no stored record still
returns `true` (the claim requires `false` when nothing was removed). -/
theorem delete_true_without_match_counterexample :
    delete_record (StoreFile.good [⟨"s", "OneHot", 0, [], [], "t", "idA"⟩])
        "other" =
      (StoreFile.good [⟨"s", "OneHot", 0, [], [], "t", "idA"⟩], true) := by
  decide

/-- C6 amended: `delete_record` removes every record whose `signal_id`
matches, keeps every other record, and on the successful write path
returns `true` whether or not anything matched. -/
theorem delete_record_amended : ∀ (f : StoreFile) (record_id : String),
    (delete_record f record_id).2 = true ∧
    (∀ r ∈ load_records (delete_record f record_id).1,
       r.signal_id ≠ record_id) ∧
    (∀ r ∈ load_records f, r.signal_id ≠ record_id →
       r ∈ load_records (delete_record f record_id).1) := by
  intro f id
  refine ⟨rfl, ?_, ?_⟩
  · intro r hr
    have hmem : r ∈ (load_records f).filter
        (fun r => r.signal_id ≠ id) :=
      (List.perm_insertionSort keyGe _).mem_iff.mp hr
    simpa using List.of_mem_filter hmem
  · intro r hr hneq
    exact (List.perm_insertionSort keyGe _).mem_iff.mpr
      (List.mem_filter.mpr ⟨hr, by simpa using hneq⟩)

/-- Witness for the amended C6: a non-matching record survives the
deletion. -/
theorem delete_record_amended_witness :
    (⟨"s", "OneHot", 0, [], [], "t", "idA"⟩ : Signal) ∈
      load_records (delete_record
        (StoreFile.good [⟨"s", "OneHot", 0, [], [], "t", "idA"⟩]) "other").1 :=
  (delete_record_amended
      (StoreFile.good [⟨"s", "OneHot", 0, [], [], "t", "idA"⟩]) "other").2.2
    ⟨"s", "OneHot", 0, [], [], "t", "idA"⟩ (by decide) (by decide)

instance : IsTotal Signal keyGe :=
  ⟨fun a b => le_total (recordKey b) (recordKey a)⟩

instance : IsTrans Signal keyGe :=
  ⟨fun _ _ _ hab hbc => le_trans hbc hab⟩

/-- C5 counterexample: a record whose `created_at` parses to exactly
`datetime.min` ties with an unparseable record, and the stable sort then
keeps the unparseable record first — so unparseable timestamps do not
always sort last. -/
theorem unparseable_not_last_counterexample :
    load_records (StoreFile.good
        [⟨"s1", "OneHot", 0, [], [], "oops", "id1"⟩,
         ⟨"s2", "OneHot", 0, [], [], "0001-01-01 00:00:00", "id2"⟩]) =
      [⟨"s1", "OneHot", 0, [], [], "oops", "id1"⟩,
       ⟨"s2", "OneHot", 0, [], [], "0001-01-01 00:00:00", "id2"⟩] ∧
    parseTime "oops" = none ∧
    parseTime "0001-01-01 00:00:00" = some datetimeMin :=
  ⟨by decide, rfl, rfl⟩

/-- C5 amended: `list()` is a permutation of the stored records, sorted
(stably) in non-increasing order of the parsed `created_at` key, where an
unparseable timestamp takes the `datetime.min` key — so unparseable
records sort after every strictly later-timestamped record but may tie
with, and then precede, records dated exactly `datetime.min`.  A missing
or corrupt file yields the empty list, and after `append(r)` the listing
contains `r`. -/
theorem record_store_list_amended :
    ∀ (f : StoreFile) (r : Signal) (rs : List Signal),
    load_records StoreFile.missing = [] ∧
    load_records StoreFile.corrupt = [] ∧
    (load_records (StoreFile.good rs)).Perm rs ∧
    (load_records (StoreFile.good rs)).Sorted keyGe ∧
    r ∈ load_records (save_record f r) := by
  intro f r rs
  refine ⟨rfl, rfl, List.perm_insertionSort keyGe rs,
    List.sorted_insertionSort keyGe rs, ?_⟩
  exact (List.perm_insertionSort keyGe _).mem_iff.mpr (by simp [save_record])

/-- A name counted at least twice is recorded by the duplicate-collection
loop; more generally, one occurrence suffices once the name is already in
`seen`. -/
theorem mem_dupOccurrences : ∀ (l seen : List String) (x : String),
    (2 ≤ l.count x ∨ (x ∈ seen ∧ 1 ≤ l.count x)) →
    x ∈ dupOccurrences seen l := by
  intro l
  induction l with
  | nil => intro seen x h; simp at h
  | cons i rest ih =>
    intro seen x h
    by_cases hx : x = i
    · subst hx
      by_cases hm : x ∈ seen
      · rw [dupOccurrences, if_pos hm]
        exact List.mem_cons_self _ _
      · rw [dupOccurrences, if_neg hm]
        refine ih (x :: seen) x (Or.inr ⟨List.mem_cons_self _ _, ?_⟩)
        rcases h with h | ⟨hmem, _⟩
        · rw [List.count_cons_self] at h; omega
        · exact absurd hmem hm
    · have hcount : (i :: rest).count x = rest.count x :=
        List.count_cons_of_ne hx _
      by_cases hm : i ∈ seen
      · rw [dupOccurrences, if_pos hm]
        refine List.mem_cons_of_mem _ (ih seen x ?_)
        rcases h with h | ⟨h1, h2⟩
        · exact Or.inl (by omega)
        · exact Or.inr ⟨h1, by omega⟩
      · rw [dupOccurrences, if_neg hm]
        refine ih (i :: seen) x ?_
        rcases h with h | ⟨h1, h2⟩
        · exact Or.inl (by omega)
        · exact Or.inr ⟨List.mem_cons_of_mem _ h1, by omega⟩

/-- A list whose length differs from its deduplicated length has a name
counted at least twice, and conversely. -/
theorem length_ne_dedup_iff (l : List String) :
    l.length ≠ l.dedup.length ↔ ∃ x, 2 ≤ l.count x := by
  constructor
  · intro h
    have hnd : ¬ l.Nodup := by
      intro hnd
      exact h (by rw [List.dedup_eq_self.mpr hnd])
    rw [List.nodup_iff_count_le_one] at hnd
    push_neg at hnd
    obtain ⟨x, hx⟩ := hnd
    exact ⟨x, by omega⟩
  · rintro ⟨x, hx⟩ h
    have : l.dedup = l := (List.dedup_sublist l).eq_of_length h.symm
    have hnd : l.Nodup := this ▸ List.nodup_dedup l
    rw [List.nodup_iff_count_le_one] at hnd
    have := hnd x
    omega

/-- C1 counterexample: with six instruction names each claimed by two
values, the raised condition lists only the first five sorted duplicates;
`"f"` is claimed twice but missing from the message. -/
theorem dup_message_truncated_counterexample :
    create_control_signal "sig" "OneHot"
        [("A", ["a", "b", "c", "d", "e", "f"]),
         ("B", ["a", "b", "c", "d", "e", "f"])] "t" "id" =
      Except.error ⟨["a", "b", "c", "d", "e"], 6⟩ ∧
    2 ≤ (([("A", ["a", "b", "c", "d", "e", "f"]),
           ("B", ["a", "b", "c", "d", "e", "f"])].flatMap
            Prod.snd).count "f") ∧
    "f" ∉ ["a", "b", "c", "d", "e"] :=
  ⟨rfl, by decide, by decide⟩

/-- C1 amended: commit fails exactly when some instruction name is
claimed more than once, and the failure message lists the first five
entries of the sorted duplicate-occurrence list (so every duplicated
name is listed whenever there are at most five duplicate occurrences);
on success the record's `instructions` is the deduplicated union of all
listed names, `values` keeps one entry per defined value (empty lists
included), and `width` is the width function of the encoding type and
the number of values. -/
theorem create_control_signal_amended (name encoding_type : String)
    (vm : List (String × List String)) (now sid : String) :
    (∀ e, create_control_signal name encoding_type vm now sid = .error e →
      (∃ x, 2 ≤ (vm.flatMap Prod.snd).count x) ∧
      e.listed = ((dupOccurrences [] (vm.flatMap Prod.snd)).insertionSort
          pyStrLe).take 5 ∧
      e.total = (dupOccurrences [] (vm.flatMap Prod.snd)).length ∧
      (e.total ≤ 5 → ∀ x, 2 ≤ (vm.flatMap Prod.snd).count x →
        x ∈ e.listed)) ∧
    (∀ s, create_control_signal name encoding_type vm now sid = .ok s →
      (∀ x, (vm.flatMap Prod.snd).count x ≤ 1) ∧
      s.instructions.Nodup ∧
      (∀ x, x ∈ s.instructions ↔ x ∈ vm.flatMap Prod.snd) ∧
      s.values = vm ∧ s.name = name ∧ s.encoding_type = encoding_type ∧
      s.width = signalWidth encoding_type vm.length ∧
      s.created_at = now ∧ s.signal_id = sid) := by
  have heq : create_control_signal name encoding_type vm now sid =
      if (vm.flatMap Prod.snd).length ≠ (vm.flatMap Prod.snd).dedup.length
      then
        Except.error
          ⟨((dupOccurrences [] (vm.flatMap Prod.snd)).insertionSort
              pyStrLe).take 5,
           (dupOccurrences [] (vm.flatMap Prod.snd)).length⟩
      else
        Except.ok ⟨name, encoding_type, signalWidth encoding_type vm.length,
          vm, (vm.flatMap Prod.snd).dedup, now, sid⟩ := rfl
  by_cases hd :
      (vm.flatMap Prod.snd).length ≠ (vm.flatMap Prod.snd).dedup.length
  · rw [heq, if_pos hd]
    constructor
    · intro e he
      injection he with he
      subst he
      refine ⟨(length_ne_dedup_iff _).mp hd, rfl, rfl, ?_⟩
      intro htot x hx
      have hmem : x ∈ dupOccurrences [] (vm.flatMap Prod.snd) :=
        mem_dupOccurrences _ [] x (Or.inl hx)
      have hperm := List.perm_insertionSort pyStrLe
        (dupOccurrences [] (vm.flatMap Prod.snd))
      have hlen : ((dupOccurrences [] (vm.flatMap Prod.snd)).insertionSort
          pyStrLe).length ≤ 5 := by
        rw [hperm.length_eq]; exact htot
      rw [List.take_of_length_le hlen]
      exact hperm.mem_iff.mpr hmem
    · intro s hs
      cases hs
  · rw [heq, if_neg hd]
    constructor
    · intro e he
      cases he
    · intro s hs
      injection hs with hs
      subst hs
      have hnd : (vm.flatMap Prod.snd).Nodup := by
        by_contra hnd
        rw [List.nodup_iff_count_le_one] at hnd
        push_neg at hnd
        obtain ⟨x, hx⟩ := hnd
        exact hd ((length_ne_dedup_iff _).mpr ⟨x, by omega⟩)
      refine ⟨List.nodup_iff_count_le_one.mp hnd, List.nodup_dedup _,
        fun x => List.mem_dedup, rfl, rfl, rfl, rfl, rfl, rfl⟩

/-- Witness for the amended C1: with `"x"` claimed twice and a single
duplicate occurrence, the listed names contain `"x"`. -/
theorem create_control_signal_amended_witness :
    "x" ∈ DupError.listed ⟨["x"], 1⟩ :=
  ((create_control_signal_amended "s" "OneHot" [("A", ["x", "x"])]
      "t" "id").1 ⟨["x"], 1⟩ rfl).2.2.2 (by decide) "x" (by decide)

/-- A replacement pass leaves a string without the pattern unchanged. -/
theorem replaceFuel_eq_of_not_contains (pat rep : List Char) :
    ∀ (fuel : Nat) (l : List Char), containsSub pat l = false →
      replaceFuel pat rep fuel l = l := by
  intro fuel
  induction fuel with
  | zero => intro l _; cases l <;> rfl
  | succ n ih =>
    intro l h
    cases l with
    | nil => rfl
    | cons c rest =>
      rw [containsSub, Bool.or_eq_false_iff] at h
      simp [replaceFuel, h.1, ih rest h.2]

/-- String-level form of `replaceFuel_eq_of_not_contains`. -/
theorem pyReplace_eq_of_not_contains (s pat rep : String)
    (h : containsSub pat.data s.data = false) : pyReplace s pat rep = s := by
  rw [pyReplace, replaceFuel_eq_of_not_contains _ _ _ _ h]

/-- C9: rendering a configured custom template containing none of the six
recognized placeholder tokens returns it unchanged, except for the
optional re-indentation pass; in particular any other brace token in it
is left untouched by the substitution pass. -/
theorem render_placeholder_free_template (tmpl : String) (signal : Signal)
    (now : String) (auto_format : Bool) (hne : tmpl ≠ "")
    (h1 : containsSub "\x7bsignal_name\x7d".data tmpl.data = false)
    (h2 : containsSub "\x7bencoding_type\x7d".data tmpl.data = false)
    (h3 : containsSub "\x7bvalues_list\x7d".data tmpl.data = false)
    (h4 : containsSub "\x7bmethods_list\x7d".data tmpl.data = false)
    (h5 : containsSub "\x7bsignal_width\x7d".data tmpl.data = false)
    (h6 : containsSub "\x7bgeneration_time\x7d".data tmpl.data = false) :
    generate_ctrl_code tmpl signal now auto_format =
      if auto_format then format_code tmpl else tmpl := by
  simp only [generate_ctrl_code]
  rw [if_neg hne,
    pyReplace_eq_of_not_contains tmpl _ signal.name h1,
    pyReplace_eq_of_not_contains tmpl _ signal.encoding_type h2,
    pyReplace_eq_of_not_contains tmpl _ (values_list_str signal.values) h3,
    pyReplace_eq_of_not_contains tmpl _ (methods_list_str signal.values) h4,
    pyReplace_eq_of_not_contains tmpl _ (toString signal.width) h5,
    pyReplace_eq_of_not_contains tmpl _ now h6]

/-- Witness for C9: a brace-bearing, placeholder-free template passes
through the substitution chain unchanged. -/
theorem render_placeholder_free_template_witness :
    generate_ctrl_code "object Foo \x7bbar\x7d"
        ⟨"n", "OneHot", 0, [], [], "t", "id"⟩ "now" false =
      if false then format_code "object Foo \x7bbar\x7d"
      else "object Foo \x7bbar\x7d" :=
  render_placeholder_free_template "object Foo \x7bbar\x7d"
    ⟨"n", "OneHot", 0, [], [], "t", "id"⟩ "now" false (by decide)
    (by decide) (by decide) (by decide) (by decide) (by decide) (by decide)

/-- C8 counterexample: substitution is not single-pass — a signal name
containing the `signal_width` placeholder is itself substituted by the
later width pass, so the render yields `"0"` instead of the literal
placeholder text. -/
theorem single_pass_substitution_counterexample :
    generate_ctrl_code "\x7bsignal_name\x7d"
        ⟨"\x7bsignal_width\x7d", "OneHot", 0, [], [], "t", "id"⟩
        "now" false = "0" ∧
    ("0" : String) ≠ "\x7bsignal_width\x7d" :=
  ⟨by decide, by decide⟩

/-- C8 amended: rendering is a fixed sequence of global literal
replacements in the order `signal_name`, `encoding_type`, `values_list`,
`methods_list`, `signal_width`, `generation_time`; a later placeholder
injected by an earlier substitution is substituted by its later pass,
while an earlier placeholder injected by a later substitution is left
untouched. -/
theorem sequential_substitution_amended (etype now name : String)
    (values : List (String × List String)) :
    generate_ctrl_code "\x7bsignal_name\x7d"
        ⟨"X\x7bsignal_width\x7d", etype, 7, values, [], "t", "id"⟩
        now false = "X7" ∧
    generate_ctrl_code "\x7bencoding_type\x7d"
        ⟨name, "\x7bsignal_name\x7d", 7, values, [], "t", "id"⟩
        now false = "\x7bsignal_name\x7d" := by
  constructor
  · show pyReplace (pyReplace (pyReplace (pyReplace (pyReplace
        (pyReplace "\x7bsignal_name\x7d" "\x7bsignal_name\x7d"
          "X\x7bsignal_width\x7d")
        "\x7bencoding_type\x7d" etype)
        "\x7bvalues_list\x7d" (values_list_str values))
        "\x7bmethods_list\x7d" (methods_list_str values))
        "\x7bsignal_width\x7d" (toString (7 : Nat)))
        "\x7bgeneration_time\x7d" now = "X7"
    rw [show pyReplace "\x7bsignal_name\x7d" "\x7bsignal_name\x7d"
          "X\x7bsignal_width\x7d" = "X\x7bsignal_width\x7d" from rfl,
      pyReplace_eq_of_not_contains _ _ etype (by decide),
      pyReplace_eq_of_not_contains _ _ (values_list_str values) (by decide),
      pyReplace_eq_of_not_contains _ _ (methods_list_str values) (by decide),
      show pyReplace "X\x7bsignal_width\x7d" "\x7bsignal_width\x7d"
          (toString (7 : Nat)) = "X7" from rfl,
      pyReplace_eq_of_not_contains _ _ now (by decide)]
  · show pyReplace (pyReplace (pyReplace (pyReplace (pyReplace
        (pyReplace "\x7bencoding_type\x7d" "\x7bsignal_name\x7d" name)
        "\x7bencoding_type\x7d" "\x7bsignal_name\x7d")
        "\x7bvalues_list\x7d" (values_list_str values))
        "\x7bmethods_list\x7d" (methods_list_str values))
        "\x7bsignal_width\x7d" (toString (7 : Nat)))
        "\x7bgeneration_time\x7d" now = "\x7bsignal_name\x7d"
    rw [pyReplace_eq_of_not_contains _ _ name (by decide),
      show pyReplace "\x7bencoding_type\x7d" "\x7bencoding_type\x7d"
          "\x7bsignal_name\x7d" = "\x7bsignal_name\x7d" from rfl,
      pyReplace_eq_of_not_contains _ _ (values_list_str values) (by decide),
      pyReplace_eq_of_not_contains _ _ (methods_list_str values) (by decide),
      pyReplace_eq_of_not_contains _ _ (toString (7 : Nat)) (by decide),
      pyReplace_eq_of_not_contains _ _ now (by decide)]

/-- Dropping a satisfied prefix twice is the same as dropping it once. -/
theorem dropWhile_self_idem (p : Char → Bool) (l : List Char) :
    (l.dropWhile p).dropWhile p = l.dropWhile p := by
  induction l with
  | nil => rfl
  | cons c rest ih =>
    by_cases h : p c
    · simp [List.dropWhile_cons, h, ih]
    · simp [List.dropWhile_cons, h]

/-- Right-stripping is idempotent. -/
theorem rstripL_idem (l : List Char) : rstripL (rstripL l) = rstripL l := by
  simp [rstripL, List.reverse_reverse, dropWhile_self_idem]

/-- Stripping ignores a previous right-strip. -/
theorem stripL_rstripL (l : List Char) : stripL (rstripL l) = stripL l := by
  simp [stripL, rstripL_idem]

/-- Left-stripping ignores a prepended run of spaces. -/
theorem lstripL_replicate_append (n : Nat) (l : List Char) :
    lstripL (List.replicate n ' ' ++ l) = lstripL l := by
  induction n with
  | zero => rfl
  | succ m ih =>
    have hsp : isPySpace ' ' = true := by decide
    simp only [lstripL] at ih ⊢
    rw [List.replicate_succ, List.cons_append, List.dropWhile_cons,
      if_pos hsp]
    exact ih

/-- Right-stripping a concatenation whose right part does not strip to
nothing only strips the right part. -/
theorem rstripL_append_of_ne_nil (a b : List Char) (h : rstripL b ≠ []) :
    rstripL (a ++ b) = a ++ rstripL b := by
  have hne : (b.reverse.dropWhile isPySpace).isEmpty = false := by
    rw [List.isEmpty_eq_false_iff_exists_mem]
    rcases hx : b.reverse.dropWhile isPySpace with _ | ⟨x, xs⟩
    · exact absurd (by simp [rstripL, hx]) h
    · exact ⟨x, by simp⟩
  rw [rstripL, List.reverse_append, List.dropWhile_append, hne]
  simp [rstripL]

/-- Stripping the emitted line (indentation plus the right-stripped
original) gives the stripped original. -/
theorem stripL_emitted (n : Nat) (line : List Char)
    (h : stripL line ≠ []) :
    stripL (List.replicate n ' ' ++ rstripL line) = stripL line := by
  have hr : rstripL line ≠ [] := by
    intro hnil
    exact h (by simp [stripL, hnil, lstripL])
  have hrr : rstripL (rstripL line) ≠ [] := by
    rw [rstripL_idem]; exact hr
  rw [stripL, rstripL_append_of_ne_nil _ _ hrr, rstripL_idem,
    lstripL_replicate_append]
  rfl

/-- The indent level of `format_code` never goes below zero. -/
theorem indent_clamped (ind : Int) (s : List Char) (h : 0 ≤ ind) :
    0 ≤ indentBefore ind s ∧ 0 ≤ indentAfter (indentBefore ind s) s := by
  have h1 : 0 ≤ indentBefore ind s := by
    rw [indentBefore]
    split_ifs
    · exact le_max_left 0 _
    · exact h
  refine ⟨h1, ?_⟩
  rw [indentAfter]
  split_ifs
  · omega
  · exact h1

/-- C10: the re-indentation loop preserves the number of lines and the
whitespace-stripped content of each line, leaves blank lines empty, and
keeps the (clamped) indent level non-negative throughout. -/
theorem format_code_line_shape : ∀ (lines : List (List Char)) (ind : Int),
    (formatLines ind lines).length = lines.length ∧
    (∀ i, i < lines.length →
      stripL ((formatLines ind lines).getD i []) =
        stripL (lines.getD i []) ∧
      (stripL (lines.getD i []) = [] →
        (formatLines ind lines).getD i [] = [])) ∧
    (∀ s : List Char, 0 ≤ ind →
      0 ≤ indentBefore ind s ∧ 0 ≤ indentAfter (indentBefore ind s) s) := by
  intro lines
  induction lines with
  | nil =>
    intro ind
    exact ⟨rfl, fun i hi => by simp at hi, fun s h => indent_clamped ind s h⟩
  | cons line rest ih =>
    intro ind
    have hunf : formatLines ind (line :: rest) =
        (if (stripL (rstripL line)).isEmpty then []
         else List.replicate
            (2 * indentBefore ind (stripL (rstripL line))).toNat ' ' ++
            rstripL line) ::
        formatLines
          (indentAfter (indentBefore ind (stripL (rstripL line)))
            (stripL (rstripL line))) rest := rfl
    have hs : stripL (rstripL line) = stripL line := stripL_rstripL line
    refine ⟨?_, ?_, fun s h => indent_clamped ind s h⟩
    · rw [hunf]
      simpa using (ih _).1
    · intro i hi
      cases i with
      | zero =>
        rw [hunf]
        simp only [List.getD_cons_zero]
        by_cases hblank : stripL line = []
        · rw [if_pos (by rw [hs]; simpa using hblank)]
          refine ⟨?_, fun _ => rfl⟩
          rw [hblank]
          rfl
        · rw [if_neg (by rw [hs]; simpa using hblank)]
          exact ⟨stripL_emitted _ line hblank, fun hb => absurd hb hblank⟩
      | succ j =>
        rw [hunf]
        simp only [List.getD_cons_succ]
        exact (ih _).2.1 j (by simpa using hi)

/-- Witness for C10 on the single line `"  val x  "` at indent 0. -/
theorem format_code_line_shape_witness :
    stripL ((formatLines 0 [[' ', 'v', 'a', 'l', ' ']]).getD 0 []) =
      stripL ([[' ', 'v', 'a', 'l', ' ']].getD 0 []) :=
  ((format_code_line_shape [[' ', 'v', 'a', 'l', ' ']] 0).2.1 0
    (by decide)).1

end Rvcodedb
